import Mathlib

/-!
Verification development for the hasty-file-sharing backend.

The Lean definitions below are a shallow embedding of the Node.js backend:
  - the piece planner from backend/utils/chunking.js (getPieceSize, the
    per-piece offset/length loop of handleUploadInit),
  - the SQLite metadata store from backend/database.js (tables as lists of
    rows, UPDATE statements as row maps),
  - the WebSocket handlers from backend/websocket.js (handleUploadInit,
    handleUploadChunk, handleDownloadInit, handleDownloadRequest,
    handleDownloadCancel, cleanupConnection, notifyDownloaders),
  - the HTTP piece endpoint from backend/routes/download.js.

Modelling conventions:
  - byte buffers are lists of naturals; the on-disk file for each path is
    the map entry in ServerState.blobs, with positional read/write modelled
    by readAt/writeAt (a short read past end of file returns fewer bytes,
    as fd.read does);
  - JavaScript Maps are association lists, JavaScript Sets are
    duplicate-free insertion-ordered lists of naturals;
  - nondeterministic inputs of a handler (fresh uuid, STORAGE_LIMIT env,
    the sha256 function from the node crypto library) are explicit
    parameters, since they are external to the repository code;
  - payload fields are Options; JavaScript truthiness of strings, numbers
    and base64 data is modelled by strTruthy / natTruthy / dataTruthy;
  - each handler returns the new server state together with the list of
    (socket, message) pairs it sends.
-/

namespace HastyFS

/-- chunking.js getPieceSize: the fixed monotonic bucket table. -/
def getPieceSize (fileSize : Nat) : Nat :=
  if fileSize < 128 * 1024 * 1024 then 64 * 1024
  else if fileSize < 1024 * 1024 * 1024 then 256 * 1024
  else if fileSize < 4 * 1024 * 1024 * 1024 then 512 * 1024
  else if fileSize < 16 * 1024 * 1024 * 1024 then 1024 * 1024
  else if fileSize < 64 * 1024 * 1024 * 1024 then 2 * 1024 * 1024
  else if fileSize < 256 * 1024 * 1024 * 1024 then 4 * 1024 * 1024
  else 8 * 1024 * 1024

/-- Math.ceil(a / b) on the integer sizes the backend uses (b > 0). -/
def jsCeilDiv (a b : Nat) : Nat := (a + b - 1) / b

/-- One row of the files table (database.js). -/
structure FileRow where
  id : String
  filename : String
  originalFilename : String
  size : Nat
  pieceSize : Nat
  totalPieces : Nat
  mimeType : String
  filePath : String
deriving Repr, DecidableEq, Inhabited

/-- One row of the pieces table (database.js). -/
structure PieceRow where
  fileId : String
  pieceIndex : Nat
  hash : String
  size : Nat
  offset : Nat
  isComplete : Bool
deriving Repr, DecidableEq, Inhabited

/-- An activeUploads entry (websocket.js). -/
structure UploadSession where
  filePath : String
  uploadedChunks : List Nat
  totalPieces : Nat
  pieceSize : Nat
  size : Nat
  ws : Nat
deriving Repr, DecidableEq, Inhabited

/-- The backend state: in-memory registries, database tables, files on disk. -/
structure ServerState where
  activeUploads : List (String × UploadSession)
  activeDownloads : List (String × List Nat)
  files : List FileRow
  pieces : List PieceRow
  blobs : List (String × List Nat)
deriving Repr, DecidableEq, Inhabited

/-- Messages the server sends over a WebSocket. -/
inductive WsMsg where
  | errorMsg (errorType message : String)
  | uploadInitSuccess (fileId : String) (pieceSize totalPieces : Nat)
  | uploadChunkSuccess (fileId : String) (chunkIndex uploadedChunks totalPieces : Nat)
  | uploadComplete (fileId : String)
  | downloadInitSuccess (fileId : String) (size pieceSize totalPieces availableChunks : Nat)
  | downloadChunk (fileId : String) (chunkIndex : Nat) (data : List Nat)
      (hash : String) (size offset : Nat)
deriving Repr, DecidableEq, Inhabited

/-- Map.get on a JavaScript Map, modelled on an association list. -/
def alistLookup {α : Type} (m : List (String × α)) (k : String) : Option α :=
  match m with
  | [] => none
  | (k', v) :: rest => if k' = k then some v else alistLookup rest k

/-- Map.set: replace the entry for the key in place, or append a new one. -/
def alistSet {α : Type} (m : List (String × α)) (k : String) (v : α) :
    List (String × α) :=
  match m with
  | [] => [(k, v)]
  | (k', v') :: rest =>
    if k' = k then (k, v) :: rest else (k', v') :: alistSet rest k v

/-- Map.delete. -/
def alistRemove {α : Type} (m : List (String × α)) (k : String) :
    List (String × α) :=
  m.filter (fun e => decide (e.1 ≠ k))

/-- Set.add on a JavaScript Set of indices. -/
def setAdd (s : List Nat) (x : Nat) : List Nat :=
  if x ∈ s then s else s ++ [x]

/-- JavaScript truthiness of an optional string field. -/
def strTruthy : Option String → Bool
  | none => false
  | some s => decide (s ≠ "")

/-- JavaScript truthiness of an optional numeric field. -/
def natTruthy : Option Nat → Bool
  | none => false
  | some n => decide (n ≠ 0)

/-- Truthiness of the base64 data field: missing or empty payloads are falsy. -/
def dataTruthy : Option (List Nat) → Bool
  | none => false
  | some b => decide (b ≠ [])

/-- Positional write of bytes at an offset into file contents. The file grows
if needed (writes past end of file leave a zero-filled gap, as on a POSIX
file); existing bytes outside the written range are unchanged. -/
def writeAt (file : List Nat) (off : Nat) (bytes : List Nat) : List Nat :=
  (List.range (max file.length (off + bytes.length))).map fun i =>
    if off ≤ i ∧ i < off + bytes.length then bytes.getD (i - off) 0
    else file.getD i 0

/-- Positional read of at most size bytes at an offset, as fd.read into a
buffer: past end of file it returns fewer bytes than requested. -/
def readAt (file : List Nat) (size off : Nat) : List Nat :=
  (file.drop off).take size

/-- database.js updatePieceHash: UPDATE pieces SET hash WHERE file_id AND
piece_index (updates zero rows when no row matches). -/
def updatePieceHash (pieces : List PieceRow) (fileId : String) (pieceIndex : Nat)
    (hash : String) : List PieceRow :=
  pieces.map fun p =>
    if p.fileId = fileId ∧ p.pieceIndex = pieceIndex then { p with hash := hash } else p

/-- database.js updatePieceComplete: UPDATE pieces SET is_complete WHERE
file_id AND piece_index. -/
def updatePieceComplete (pieces : List PieceRow) (fileId : String)
    (pieceIndex : Nat) (isComplete : Bool) : List PieceRow :=
  pieces.map fun p =>
    if p.fileId = fileId ∧ p.pieceIndex = pieceIndex then { p with isComplete := isComplete } else p

/-- database.js getPiecesByFileId: SELECT * FROM pieces WHERE file_id ORDER BY
piece_index. Rows are inserted in index order at init, so the stored order is
already the query order. -/
def getPiecesByFileId (pieces : List PieceRow) (fileId : String) : List PieceRow :=
  pieces.filter (fun p => p.fileId == fileId)

/-- database.js getFileById. -/
def getFileById (files : List FileRow) (fileId : String) : Option FileRow :=
  files.find? (fun f => f.id == fileId)

/-- The per-piece rows built by the handleUploadInit loop (websocket.js):
offset i * pieceSize, length min(pieceSize, size - offset), hash empty,
is_complete 0. -/
def mkPieces (fileId : String) (size pieceSize totalPieces : Nat) : List PieceRow :=
  (List.range totalPieces).map fun i =>
    { fileId := fileId
      pieceIndex := i
      hash := ""
      size := min pieceSize (size - i * pieceSize)
      offset := i * pieceSize
      isComplete := false }

/-- UPLOAD_INIT payload. -/
structure InitPayload where
  filename : Option String
  size : Option Nat
  mimeType : Option String
deriving Repr, DecidableEq, Inhabited

/-- UPLOAD_CHUNK payload; data is the base64-decoded chunk. -/
structure ChunkPayload where
  fileId : Option String
  chunkIndex : Option Nat
  data : Option (List Nat)
  hash : Option String
deriving Repr, DecidableEq, Inhabited

/-- websocket.js notifyDownloaders: when subscribers exist and the piece is
recorded complete, read its bytes once and push a DOWNLOAD_CHUNK to every
subscriber; on a short read only a console error is logged and nothing is
sent (the throw is swallowed by the fire-and-forget catch at the call site). -/
def notifyDownloaders (st : ServerState) (fileId : String) (chunkIndex : Nat) :
    List (Nat × WsMsg) :=
  match alistLookup st.activeDownloads fileId with
  | none => []
  | some subs =>
    if subs.isEmpty then []
    else
      match getFileById st.files fileId with
      | none => []
      | some file =>
        match (getPiecesByFileId st.pieces fileId).find?
            (fun p => p.pieceIndex == chunkIndex && p.isComplete) with
        | none => []
        | some piece =>
          let content := (alistLookup st.blobs file.filePath).getD []
          let buffer := readAt content piece.size piece.offset
          if buffer.length ≠ piece.size then []
          else subs.map fun w =>
            (w, WsMsg.downloadChunk fileId piece.pieceIndex buffer piece.hash
                  piece.size piece.offset)

/-- websocket.js handleUploadInit. freshId is the uuidv4() the handler draws,
and storageLimit the parsed STORAGE_LIMIT environment value; both are inputs
external to the repository code. The path.extname decoration of the stored
filename and the mime-types lookup are external library calls not modelled
(they affect only the stored filename/mimeType strings). -/
def handleUploadInit (st : ServerState) (ws : Nat) (p : InitPayload)
    (freshId : String) (storageLimit : Nat) : ServerState × List (Nat × WsMsg) :=
  if strTruthy p.filename = false ∨ natTruthy p.size = false then
    (st, [(ws, WsMsg.errorMsg "UPLOAD_INIT_ERROR" "Missing filename or size")])
  else
    let size := p.size.getD 0
    let totalUsed := (st.files.map FileRow.size).sum
    if totalUsed + size > storageLimit then
      (st, [(ws, WsMsg.errorMsg "STORAGE_LIMIT_EXCEEDED" "Storage limit exceeded")])
    else
      let fileId := freshId
      let finalPath := String.append "uploads/" freshId
      let pieceSize := getPieceSize size
      let totalPieces := jsCeilDiv size pieceSize
      let fileRow : FileRow :=
        { id := fileId
          filename := freshId
          originalFilename := p.filename.getD ""
          size := size
          pieceSize := pieceSize
          totalPieces := totalPieces
          mimeType := (p.mimeType.getD "application/octet-stream")
          filePath := finalPath }
      let session : UploadSession :=
        { filePath := finalPath
          uploadedChunks := []
          totalPieces := totalPieces
          pieceSize := pieceSize
          size := size
          ws := ws }
      let st1 : ServerState :=
        { st with
            files := st.files ++ [fileRow]
            pieces := st.pieces ++ mkPieces fileId size pieceSize totalPieces
            blobs := alistSet st.blobs finalPath []
            activeUploads := alistSet st.activeUploads fileId session }
      (st1, [(ws, WsMsg.uploadInitSuccess fileId pieceSize totalPieces)])

/-- The tail of websocket.js handleUploadChunk after all validation passed:
write the bytes at chunkIndex * pieceSize, update the piece row (hash and
complete flag) in the database, record the index in the session's uploaded
set, reply with success, push the piece to subscribers, and — when the
uploaded set reaches totalPieces — drop the session and announce
UPLOAD_COMPLETE. Factored out of handleUploadChunk for reuse in proofs. -/
def acceptChunk (hashFn : List Nat → String) (st : ServerState) (ws : Nat)
    (fileId : String) (chunkIndex : Nat) (chunkData : List Nat)
    (upload : UploadSession) : ServerState × List (Nat × WsMsg) :=
  let actualHash := hashFn chunkData
  let offset := chunkIndex * upload.pieceSize
  let content := (alistLookup st.blobs upload.filePath).getD []
  let newContent := writeAt content offset chunkData
  let pieces1 := updatePieceHash st.pieces fileId chunkIndex actualHash
  let pieces2 := updatePieceComplete pieces1 fileId chunkIndex true
  let newChunks := setAdd upload.uploadedChunks chunkIndex
  let upload2 := { upload with uploadedChunks := newChunks }
  let st1 : ServerState :=
    { st with
        blobs := alistSet st.blobs upload.filePath newContent
        pieces := pieces2
        activeUploads := alistSet st.activeUploads fileId upload2 }
  let successMsg := (ws, WsMsg.uploadChunkSuccess fileId chunkIndex
    newChunks.length upload.totalPieces)
  let pushes := notifyDownloaders st1 fileId chunkIndex
  if newChunks.length = upload.totalPieces then
    ({ st1 with activeUploads := alistRemove st1.activeUploads fileId },
     [successMsg] ++ pushes ++ [(ws, WsMsg.uploadComplete fileId)])
  else
    (st1, [successMsg] ++ pushes)

/-- websocket.js handleUploadChunk. hashFn stands for the sha256 hex digest
from the node crypto library (chunking.js hashPiece), an external collaborator
passed in explicitly. Note the source checks the claimed hash only when the
hash field is truthy, and never compares chunkData.length against the planned
piece length. -/
def handleUploadChunk (hashFn : List Nat → String) (st : ServerState) (ws : Nat)
    (p : ChunkPayload) : ServerState × List (Nat × WsMsg) :=
  if strTruthy p.fileId = false ∨ p.chunkIndex = none ∨ dataTruthy p.data = false then
    (st, [(ws, WsMsg.errorMsg "UPLOAD_CHUNK_ERROR" "Missing required fields")])
  else
    let fileId := p.fileId.getD ""
    let chunkIndex := p.chunkIndex.getD 0
    let chunkData := p.data.getD []
    match alistLookup st.activeUploads fileId with
    | none => (st, [(ws, WsMsg.errorMsg "UPLOAD_NOT_FOUND" "Upload session not found")])
    | some upload =>
      let actualHash := hashFn chunkData
      if strTruthy p.hash = true ∧ actualHash ≠ p.hash.getD "" then
        (st, [(ws, WsMsg.errorMsg "HASH_MISMATCH" "Chunk hash mismatch")])
      else
        acceptChunk hashFn st ws fileId chunkIndex chunkData upload

/-- websocket.js handleDownloadInit: register the subscriber and report the
snapshot of complete pieces. -/
def handleDownloadInit (st : ServerState) (ws : Nat) (fileId : Option String) :
    ServerState × List (Nat × WsMsg) :=
  if strTruthy fileId = false then
    (st, [(ws, WsMsg.errorMsg "DOWNLOAD_INIT_ERROR" "Missing fileId")])
  else
    let fid := fileId.getD ""
    match getFileById st.files fid with
    | none => (st, [(ws, WsMsg.errorMsg "FILE_NOT_FOUND" "File not found")])
    | some file =>
      let avail := (getPiecesByFileId st.pieces fid).filter (fun p => p.isComplete)
      let subs := (alistLookup st.activeDownloads fid).getD []
      let st1 := { st with activeDownloads := alistSet st.activeDownloads fid (setAdd subs ws) }
      (st1, [(ws, WsMsg.downloadInitSuccess fid file.size file.pieceSize
                file.totalPieces avail.length)])

/-- websocket.js handleDownloadRequest. Pure read: no state change. -/
def handleDownloadRequest (st : ServerState) (ws : Nat) (fileId : Option String)
    (chunkIndex : Option Nat) : List (Nat × WsMsg) :=
  if strTruthy fileId = false ∨ chunkIndex = none then
    [(ws, WsMsg.errorMsg "DOWNLOAD_REQUEST_ERROR" "Missing required fields")]
  else
    let fid := fileId.getD ""
    let idx := chunkIndex.getD 0
    match getFileById st.files fid with
    | none => [(ws, WsMsg.errorMsg "FILE_NOT_FOUND" "File not found")]
    | some file =>
      match (getPiecesByFileId st.pieces fid).find?
          (fun p => p.pieceIndex == idx && p.isComplete) with
      | none => [(ws, WsMsg.errorMsg "CHUNK_NOT_AVAILABLE" "Chunk not available")]
      | some piece =>
        let content := (alistLookup st.blobs file.filePath).getD []
        let buffer := readAt content piece.size piece.offset
        if buffer.length ≠ piece.size then
          [(ws, WsMsg.errorMsg "READ_ERROR" "Short read")]
        else
          [(ws, WsMsg.downloadChunk fid piece.pieceIndex buffer piece.hash
                  piece.size piece.offset)]

/-- websocket.js handleDownloadCancel. -/
def handleDownloadCancel (st : ServerState) (ws : Nat) (fileId : Option String) :
    ServerState :=
  match fileId with
  | none => st
  | some fid =>
    match alistLookup st.activeDownloads fid with
    | none => st
    | some subs =>
      let subs2 := subs.filter (fun w => w ≠ ws)
      if subs2.isEmpty then { st with activeDownloads := alistRemove st.activeDownloads fid }
      else { st with activeDownloads := alistSet st.activeDownloads fid subs2 }

/-- websocket.js cleanupConnection (producer or consumer disconnect): drop the
connection from the in-memory registries. It sends no messages and touches
neither the database tables nor the files on disk. -/
def cleanupConnection (st : ServerState) (ws : Nat) :
    ServerState × List (Nat × WsMsg) :=
  ({ st with
      activeUploads := st.activeUploads.filter (fun e => decide (e.2.ws ≠ ws))
      activeDownloads :=
        (st.activeDownloads.map (fun e => (e.1, e.2.filter (fun w => decide (w ≠ ws))))).filter
          (fun e => decide (e.2 ≠ [])) },
   [])

/-- Responses of the HTTP piece endpoint (routes/download.js, piece branch). -/
inductive HttpResp where
  | notFoundFile
  | notFoundPiece
  | notReady (pieceIndex : Nat)
  | truncated (data : List Nat)
  | ok (data : List Nat)
deriving Repr, DecidableEq, Inhabited

/-- routes/download.js GET /:fileId?piece=i. A missing blob file (ENOENT on
open) is reported as piece-not-yet-available; a short read of a complete piece
is answered 206 with the truncated bytes as the body. -/
def httpGetPiece (st : ServerState) (fileId : String) (pieceIdx : Nat) : HttpResp :=
  match getFileById st.files fileId with
  | none => HttpResp.notFoundFile
  | some file =>
    match (getPiecesByFileId st.pieces fileId).find? (fun p => p.pieceIndex == pieceIdx) with
    | none => HttpResp.notFoundPiece
    | some piece =>
      if piece.isComplete = false then HttpResp.notReady pieceIdx
      else
        match alistLookup st.blobs file.filePath with
        | none => HttpResp.notReady pieceIdx
        | some content =>
          let buffer := readAt content piece.size piece.offset
          if buffer.length < piece.size then HttpResp.truncated buffer
          else HttpResp.ok buffer

/-! ### Concrete test fixtures

Small closed states used by counterexample and witness theorems. constHash is
a concrete stand-in for the external sha256 collaborator in closed examples;
every property proved is independent of the choice of hash function. -/

/-- Concrete hash stand-in for closed examples. -/
def constHash : List Nat → String := fun _ => "h"

/-- One active single-piece upload for file "f": planned piece 0 has length 4
at offset 0, nothing uploaded yet. -/
def exState1 : ServerState :=
  { activeUploads := [("f", ⟨"p", [], 1, 4, 4, 0⟩)]
    activeDownloads := []
    files := [⟨"f", "f", "a.txt", 4, 4, 1, "text/plain", "p"⟩]
    pieces := [⟨"f", 0, "", 4, 0, false⟩]
    blobs := [("p", [])] }

/-- A mid-transfer state: producer ws 1 uploads file "f" (2 pieces of 2
bytes), piece 0 complete with bytes [5, 6] on disk, piece 1 pending, and
consumer ws 2 subscribed. -/
def exState2 : ServerState :=
  { activeUploads := [("f", ⟨"p", [0], 2, 2, 4, 1⟩)]
    activeDownloads := [("f", [2])]
    files := [⟨"f", "f", "a.bin", 4, 2, 2, "application/octet-stream", "p"⟩]
    pieces := [⟨"f", 0, "h", 2, 0, true⟩, ⟨"f", 1, "", 2, 2, false⟩]
    blobs := [("p", [5, 6])] }

/-- A fresh three-piece upload for file "f" (pieces of 2 bytes, size 6),
nothing uploaded yet. -/
def exState3 : ServerState :=
  { activeUploads := [("f", ⟨"p", [], 3, 2, 6, 0⟩)]
    activeDownloads := []
    files := [⟨"f", "f", "b.bin", 6, 2, 3, "application/octet-stream", "p"⟩]
    pieces := [⟨"f", 0, "", 2, 0, false⟩, ⟨"f", 1, "", 2, 2, false⟩,
      ⟨"f", 2, "", 2, 4, false⟩]
    blobs := [("p", [])] }

/-- A file whose piece 0 is recorded complete with length 4, while the blob on
disk holds only 2 bytes: the short-read situation of the HTTP piece branch. -/
def exState4 : ServerState :=
  { activeUploads := []
    activeDownloads := []
    files := [⟨"f", "f", "c.bin", 4, 4, 1, "application/octet-stream", "p"⟩]
    pieces := [⟨"f", 0, "h", 4, 0, true⟩]
    blobs := [("p", [1, 2])] }

/-! ### General lemmas about the piece planner -/

theorem getPieceSize_pos (S : Nat) : 0 < getPieceSize S := by
  unfold getPieceSize
  split_ifs <;> norm_num

/-- Partial sums of the planned piece lengths. -/
theorem sum_min_pieces (S ps k : Nat) :
    (((List.range k).map fun i => min ps (S - i * ps)).sum) = min S (k * ps) := by
  induction k with
  | zero => simp
  | succ k ih =>
    rw [List.range_succ, List.map_append, List.sum_append, ih]
    simp only [List.map_cons, List.map_nil, List.sum_cons, List.sum_nil]
    have h : (k + 1) * ps = k * ps + ps := by ring
    rw [h]
    have key : ∀ t : Nat, min S t + (min ps (S - t) + 0) = min S (t + ps) := by
      intro t
      omega
    exact key (k * ps)

/-- The ceiling division covers the whole size. -/
theorem le_jsCeilDiv_mul (S ps : Nat) (hps : 0 < ps) :
    S ≤ jsCeilDiv S ps * ps := by
  unfold jsCeilDiv
  have h1 := Nat.div_add_mod (S + ps - 1) ps
  have h2 : (S + ps - 1) % ps < ps := Nat.mod_lt _ hps
  have hcomm : ps * ((S + ps - 1) / ps) = (S + ps - 1) / ps * ps := Nat.mul_comm _ _
  rw [hcomm] at h1
  have key : ∀ C r : Nat, C + r = S + ps - 1 → r < ps → S ≤ C := by
    intro C r hCr hr
    omega
  exact key _ _ h1 h2

/-- Every index strictly before the last piece starts strictly inside the file. -/
theorem jsCeilDiv_mul_lt (S ps k : Nat) (hps : 0 < ps)
    (hk : k + 1 < jsCeilDiv S ps) : (k + 1) * ps < S := by
  unfold jsCeilDiv at hk
  have h1 := Nat.div_add_mod (S + ps - 1) ps
  have h2 : (S + ps - 1) % ps < ps := Nat.mod_lt _ hps
  have hcomm : ps * ((S + ps - 1) / ps) = (S + ps - 1) / ps * ps := Nat.mul_comm _ _
  rw [hcomm] at h1
  have h3 : (k + 2) * ps ≤ (S + ps - 1) / ps * ps :=
    Nat.mul_le_mul_right ps (by omega)
  have h5 : (k + 2) * ps = (k + 1) * ps + ps := by ring
  have key : ∀ A B C r : Nat, B ≤ C → B = A + ps → C + r = S + ps - 1 → r < ps →
      A < S := by
    intro A B C r hBC hBA hCr hr
    omega
  exact key _ _ _ _ h3 h5 h1 h2

theorem mkPieces_length (f : String) (S ps n : Nat) :
    (mkPieces f S ps n).length = n := by
  unfold mkPieces
  simp

theorem mkPieces_getD (f : String) (S ps n i : Nat) (hi : i < n) :
    (mkPieces f S ps n).getD i default =
      { fileId := f, pieceIndex := i, hash := "", size := min ps (S - i * ps),
        offset := i * ps, isComplete := false } := by
  unfold mkPieces
  rw [List.getD_eq_getElem?_getD, List.getElem?_map, List.getElem?_range hi]
  rfl

theorem mkPieces_map_size (f : String) (S ps n : Nat) :
    (mkPieces f S ps n).map PieceRow.size =
      (List.range n).map fun i => min ps (S - i * ps) := by
  unfold mkPieces
  rw [List.map_map]
  rfl

theorem mkPieces_sum (f : String) (S ps n : Nat)
    (hcover : S ≤ n * ps) :
    ((mkPieces f S ps n).map PieceRow.size).sum = S := by
  rw [mkPieces_map_size, sum_min_pieces]
  omega

theorem mkPieces_take_sum (f : String) (S ps n i : Nat) (hin : i ≤ n)
    (hi : i * ps ≤ S) :
    (((mkPieces f S ps n).take i).map PieceRow.size).sum = i * ps := by
  unfold mkPieces
  rw [← List.map_take, List.take_range, List.map_map]
  have h : min i n = i := by omega
  rw [h]
  have h2 : ((List.range i).map (PieceRow.size ∘ fun j =>
      ({ fileId := f, pieceIndex := j, hash := "", size := min ps (S - j * ps),
         offset := j * ps, isComplete := false } : PieceRow))).sum
      = ((List.range i).map fun j => min ps (S - j * ps)).sum := rfl
  rw [h2, sum_min_pieces]
  omega

/-! ### General lemmas about the state model -/

theorem alistLookup_set_self {α : Type} (m : List (String × α)) (k : String) (v : α) :
    alistLookup (alistSet m k v) k = some v := by
  induction m with
  | nil => simp [alistSet, alistLookup]
  | cons e rest ih =>
    obtain ⟨k0, v0⟩ := e
    by_cases h0 : k0 = k
    · simp [alistSet, alistLookup, h0]
    · simp [alistSet, alistLookup, h0, ih]

theorem alistLookup_set_ne {α : Type} (m : List (String × α)) (k k' : String) (v : α)
    (h : k ≠ k') : alistLookup (alistSet m k v) k' = alistLookup m k' := by
  induction m with
  | nil => simp [alistSet, alistLookup, h]
  | cons e rest ih =>
    obtain ⟨k0, v0⟩ := e
    by_cases h0 : k0 = k
    · subst h0
      simp [alistSet, alistLookup, h]
    · simp only [alistSet, if_neg h0, alistLookup]
      by_cases h1 : k0 = k'
      · simp [h1]
      · simp [h1, ih]

theorem alistSet_lookup_self {α : Type} (m : List (String × α)) (k : String) (v : α)
    (h : alistLookup m k = some v) : alistSet m k v = m := by
  induction m with
  | nil => simp [alistLookup] at h
  | cons e rest ih =>
    obtain ⟨k0, v0⟩ := e
    by_cases h0 : k0 = k
    · subst h0
      have hv : v0 = v := by simpa [alistLookup] using h
      subst hv
      simp [alistSet]
    · simp only [alistLookup, if_neg h0] at h
      simp [alistSet, h0, ih h]

theorem alistLookup_remove_self {α : Type} (m : List (String × α)) (k : String) :
    alistLookup (alistRemove m k) k = none := by
  induction m with
  | nil => rfl
  | cons e rest ih =>
    obtain ⟨k0, v0⟩ := e
    by_cases h0 : k0 = k
    · simpa [alistRemove, h0] using ih
    · simpa [alistRemove, alistLookup, h0] using ih

/-- Rewriting a byte range that already holds exactly those bytes leaves the
file unchanged. -/
theorem writeAt_eq_self (file : List Nat) (off : Nat) (bytes : List Nat)
    (hlen : off + bytes.length ≤ file.length)
    (hcontent : ∀ j, j < bytes.length → file.getD (off + j) 0 = bytes.getD j 0) :
    writeAt file off bytes = file := by
  unfold writeAt
  have hmax : max file.length (off + bytes.length) = file.length := by omega
  rw [hmax]
  apply List.ext_getElem
  · simp
  · intro i h1 h2
    simp only [List.getElem_map, List.getElem_range]
    by_cases hio : off ≤ i ∧ i < off + bytes.length
    · rw [if_pos hio]
      have hj := hcontent (i - off) (by omega)
      have hoi : off + (i - off) = i := by omega
      rw [hoi] at hj
      rw [← hj, List.getD_eq_getElem?_getD, List.getElem?_eq_getElem h2]
      rfl
    · rw [if_neg hio, List.getD_eq_getElem?_getD, List.getElem?_eq_getElem h2]
      rfl

/-- The fan-out push never emits an error message. -/
theorem notifyDownloaders_not_errorMsg (st : ServerState) (f : String) (i : Nat)
    (m : Nat × WsMsg) (hm : m ∈ notifyDownloaders st f i) (et s : String) :
    m.2 ≠ WsMsg.errorMsg et s := by
  unfold notifyDownloaders at hm
  repeat' split at hm
  all_goals try simp_all
  all_goals obtain ⟨hread, a, hamem, hmeq⟩ := hm
  all_goals subst hmeq
  all_goals simp

/-- Every piece pushed by the fan-out carries exactly the recorded number of
bytes. -/
theorem notifyDownloaders_chunk_length (st : ServerState) (f : String) (i : Nat)
    (m : Nat × WsMsg) (hm : m ∈ notifyDownloaders st f i)
    (fid : String) (idx : Nat) (d : List Nat) (h : String) (sz off : Nat)
    (heq : m.2 = WsMsg.downloadChunk fid idx d h sz off) : d.length = sz := by
  unfold notifyDownloaders at hm
  repeat' split at hm
  all_goals try simp_all
  all_goals obtain ⟨hread, a, hamem, hmeq⟩ := hm
  all_goals subst hmeq
  all_goals simp_all
  all_goals obtain ⟨h1, h2, h3, h4, h5, h6⟩ := heq
  all_goals subst h3
  all_goals rw [h5, h6]
  all_goals exact hread

theorem handleUploadChunk_eq_accept (hashFn : List Nat → String) (st : ServerState)
    (ws : Nat) (fid : String) (idx : Nat) (bytes : List Nat) (h : Option String)
    (u : UploadSession)
    (hfid : fid ≠ "") (hbytes : bytes ≠ [])
    (hlk : alistLookup st.activeUploads fid = some u)
    (hhash : strTruthy h = false ∨ hashFn bytes = h.getD "") :
    handleUploadChunk hashFn st ws ⟨some fid, some idx, some bytes, h⟩ =
      acceptChunk hashFn st ws fid idx bytes u := by
  have hno : ¬ (strTruthy h = true ∧ hashFn bytes ≠ h.getD "") := by
    rcases hhash with h1 | h1 <;> simp [h1]
  have hguard : ¬ (strTruthy (ChunkPayload.mk (some fid) (some idx) (some bytes) h).fileId
        = false
      ∨ (ChunkPayload.mk (some fid) (some idx) (some bytes) h).chunkIndex = none
      ∨ dataTruthy (ChunkPayload.mk (some fid) (some idx) (some bytes) h).data
        = false) := by
    simp [strTruthy, dataTruthy, hfid, hbytes]
  unfold handleUploadChunk
  rw [if_neg hguard]
  simp only [hlk, Option.getD_some]
  rw [if_neg hno]

theorem handleUploadChunk_mismatch (hashFn : List Nat → String) (st : ServerState)
    (ws : Nat) (fid : String) (idx : Nat) (bytes : List Nat) (h : Option String)
    (u : UploadSession)
    (hfid : fid ≠ "") (hbytes : bytes ≠ [])
    (hlk : alistLookup st.activeUploads fid = some u)
    (hh : strTruthy h = true) (hne : hashFn bytes ≠ h.getD "") :
    handleUploadChunk hashFn st ws ⟨some fid, some idx, some bytes, h⟩ =
      (st, [(ws, WsMsg.errorMsg "HASH_MISMATCH" "Chunk hash mismatch")]) := by
  have hguard : ¬ (strTruthy (ChunkPayload.mk (some fid) (some idx) (some bytes) h).fileId
        = false
      ∨ (ChunkPayload.mk (some fid) (some idx) (some bytes) h).chunkIndex = none
      ∨ dataTruthy (ChunkPayload.mk (some fid) (some idx) (some bytes) h).data
        = false) := by
    simp [strTruthy, dataTruthy, hfid, hbytes]
  unfold handleUploadChunk
  rw [if_neg hguard]
  simp only [hlk, Option.getD_some]
  rw [if_pos ⟨hh, hne⟩]

theorem acceptChunk_pieces (hashFn : List Nat → String) (st : ServerState)
    (ws : Nat) (fid : String) (idx : Nat) (bytes : List Nat) (u : UploadSession) :
    (acceptChunk hashFn st ws fid idx bytes u).1.pieces =
      updatePieceComplete (updatePieceHash st.pieces fid idx (hashFn bytes))
        fid idx true := by
  simp only [acceptChunk]
  split <;> rfl

theorem acceptChunk_blobs (hashFn : List Nat → String) (st : ServerState)
    (ws : Nat) (fid : String) (idx : Nat) (bytes : List Nat) (u : UploadSession) :
    (acceptChunk hashFn st ws fid idx bytes u).1.blobs =
      alistSet st.blobs u.filePath
        (writeAt ((alistLookup st.blobs u.filePath).getD []) (idx * u.pieceSize)
          bytes) := by
  simp only [acceptChunk]
  split <;> rfl

theorem acceptChunk_success_mem (hashFn : List Nat → String) (st : ServerState)
    (ws : Nat) (fid : String) (idx : Nat) (bytes : List Nat) (u : UploadSession) :
    (ws, WsMsg.uploadChunkSuccess fid idx (setAdd u.uploadedChunks idx).length
        u.totalPieces) ∈ (acceptChunk hashFn st ws fid idx bytes u).2 := by
  simp only [acceptChunk]
  split <;> simp

/-- An accepted chunk is answered with success, pushes, and possibly the
completion signal — never with an error message. -/
theorem acceptChunk_no_errorMsg (hashFn : List Nat → String) (st : ServerState)
    (ws : Nat) (fid : String) (idx : Nat) (bytes : List Nat) (u : UploadSession)
    (m : Nat × WsMsg) (hm : m ∈ (acceptChunk hashFn st ws fid idx bytes u).2)
    (et s : String) : m.2 ≠ WsMsg.errorMsg et s := by
  simp only [acceptChunk] at hm
  split at hm
  · simp only [List.append_assoc, List.mem_append, List.mem_singleton] at hm
    rcases hm with hm | hm | hm
    · subst hm
      simp
    · exact notifyDownloaders_not_errorMsg _ _ _ m hm et s
    · subst hm
      simp
  · simp only [List.mem_append, List.mem_singleton] at hm
    rcases hm with hm | hm
    · subst hm
      simp
    · exact notifyDownloaders_not_errorMsg _ _ _ m hm et s

/-- When the uploaded set reaches totalPieces, UPLOAD_COMPLETE is sent. -/
theorem acceptChunk_complete_mem (hashFn : List Nat → String) (st : ServerState)
    (ws : Nat) (fid : String) (idx : Nat) (bytes : List Nat) (u : UploadSession)
    (hfull : (setAdd u.uploadedChunks idx).length = u.totalPieces) :
    (ws, WsMsg.uploadComplete fid) ∈ (acceptChunk hashFn st ws fid idx bytes u).2 := by
  simp only [acceptChunk]
  rw [if_pos hfull]
  simp

/-- When the uploaded set reaches totalPieces, the session is dropped. -/
theorem acceptChunk_session_removed (hashFn : List Nat → String) (st : ServerState)
    (ws : Nat) (fid : String) (idx : Nat) (bytes : List Nat) (u : UploadSession)
    (hfull : (setAdd u.uploadedChunks idx).length = u.totalPieces) :
    alistLookup (acceptChunk hashFn st ws fid idx bytes u).1.activeUploads fid
      = none := by
  simp only [acceptChunk]
  rw [if_pos hfull]
  exact alistLookup_remove_self _ _

/-- Updating a hash to the value every matching row already holds is a no-op. -/
theorem updatePieceHash_eq_self (pieces : List PieceRow) (fid : String) (idx : Nat)
    (hsh : String)
    (h : ∀ p ∈ pieces, p.fileId = fid → p.pieceIndex = idx → p.hash = hsh) :
    updatePieceHash pieces fid idx hsh = pieces := by
  unfold updatePieceHash
  have hcong : ∀ p ∈ pieces,
      (if p.fileId = fid ∧ p.pieceIndex = idx then { p with hash := hsh } else p) = id p := by
    intro p hp
    by_cases hc : p.fileId = fid ∧ p.pieceIndex = idx
    · rw [if_pos hc, ← h p hp hc.1 hc.2]
      rfl
    · rw [if_neg hc]
      rfl
  rw [List.map_congr_left hcong, List.map_id]

/-- Setting a completeness flag every matching row already holds is a no-op. -/
theorem updatePieceComplete_eq_self (pieces : List PieceRow) (fid : String)
    (idx : Nat) (b : Bool)
    (h : ∀ p ∈ pieces, p.fileId = fid → p.pieceIndex = idx → p.isComplete = b) :
    updatePieceComplete pieces fid idx b = pieces := by
  unfold updatePieceComplete
  have hcong : ∀ p ∈ pieces,
      (if p.fileId = fid ∧ p.pieceIndex = idx then { p with isComplete := b } else p)
        = id p := by
    intro p hp
    by_cases hc : p.fileId = fid ∧ p.pieceIndex = idx
    · rw [if_pos hc, ← h p hp hc.1 hc.2]
      rfl
    · rw [if_neg hc]
      rfl
  rw [List.map_congr_left hcong, List.map_id]

/-- An UPDATE whose WHERE clause matches no row changes nothing. -/
theorem updatePieceHash_no_match (pieces : List PieceRow) (fid : String) (idx : Nat)
    (hsh : String)
    (h : ∀ p ∈ pieces, ¬ (p.fileId = fid ∧ p.pieceIndex = idx)) :
    updatePieceHash pieces fid idx hsh = pieces := by
  unfold updatePieceHash
  have hcong : ∀ p ∈ pieces,
      (if p.fileId = fid ∧ p.pieceIndex = idx then { p with hash := hsh } else p) = id p := by
    intro p hp
    rw [if_neg (h p hp)]
    rfl
  rw [List.map_congr_left hcong, List.map_id]

/-- An UPDATE whose WHERE clause matches no row changes nothing. -/
theorem updatePieceComplete_no_match (pieces : List PieceRow) (fid : String)
    (idx : Nat) (b : Bool)
    (h : ∀ p ∈ pieces, ¬ (p.fileId = fid ∧ p.pieceIndex = idx)) :
    updatePieceComplete pieces fid idx b = pieces := by
  unfold updatePieceComplete
  have hcong : ∀ p ∈ pieces,
      (if p.fileId = fid ∧ p.pieceIndex = idx then { p with isComplete := b } else p)
        = id p := by
    intro p hp
    rw [if_neg (h p hp)]
    rfl
  rw [List.map_congr_left hcong, List.map_id]

/-- After the two per-chunk UPDATE statements, every row matching the chunk is
complete and carries the computed hash. -/
theorem updated_row_complete (pieces : List PieceRow) (fid : String) (idx : Nat)
    (hsh : String) (p : PieceRow)
    (hp : p ∈ updatePieceComplete (updatePieceHash pieces fid idx hsh) fid idx true)
    (hpf : p.fileId = fid) (hpi : p.pieceIndex = idx) :
    p.isComplete = true ∧ p.hash = hsh := by
  unfold updatePieceComplete updatePieceHash at hp
  simp only [List.mem_map] at hp
  obtain ⟨q, ⟨r, hr, rfl⟩, rfl⟩ := hp
  by_cases hc : r.fileId = fid ∧ r.pieceIndex = idx
  · simp [hc]
  · rw [if_neg hc] at hpf hpi ⊢
    rw [if_neg hc] at hpf hpi ⊢
    exact absurd ⟨hpf, hpi⟩ hc

/-! ### Claim C2 -/

/-- C2: for every file size S >= 1 the piece plan chooses the piece size from
the fixed bucket table, takes pieceCount = ceil(S / pieceSize), gives piece i
offset i * pieceSize and length min(pieceSize, S - i * pieceSize), the lengths
sum to exactly S, each offset equals the sum of the preceding lengths, only
the last piece may be shorter than pieceSize, and a 200 MiB input gets
256 KiB pieces and 800 pieces. -/
theorem C2_piece_plan (S : Nat) (hS : 1 ≤ S) :
    (mkPieces "f" S (getPieceSize S) (jsCeilDiv S (getPieceSize S))).length
        = jsCeilDiv S (getPieceSize S)
    ∧ ((mkPieces "f" S (getPieceSize S) (jsCeilDiv S (getPieceSize S))).map
        PieceRow.size).sum = S
    ∧ (∀ i, i < jsCeilDiv S (getPieceSize S) →
        ((mkPieces "f" S (getPieceSize S) (jsCeilDiv S (getPieceSize S))).getD i
            default).offset = i * getPieceSize S
        ∧ ((mkPieces "f" S (getPieceSize S) (jsCeilDiv S (getPieceSize S))).getD i
            default).size = min (getPieceSize S) (S - i * getPieceSize S)
        ∧ (((mkPieces "f" S (getPieceSize S) (jsCeilDiv S (getPieceSize S))).take i).map
            PieceRow.size).sum
            = ((mkPieces "f" S (getPieceSize S) (jsCeilDiv S (getPieceSize S))).getD i
                default).offset)
    ∧ (∀ i, i + 1 < jsCeilDiv S (getPieceSize S) →
        ((mkPieces "f" S (getPieceSize S) (jsCeilDiv S (getPieceSize S))).getD i
            default).size = getPieceSize S)
    ∧ getPieceSize (200 * 1024 * 1024) = 256 * 1024
    ∧ jsCeilDiv (200 * 1024 * 1024) (256 * 1024) = 800 := by
  have hps : 0 < getPieceSize S := getPieceSize_pos S
  have hcover : S ≤ jsCeilDiv S (getPieceSize S) * getPieceSize S :=
    le_jsCeilDiv_mul S (getPieceSize S) hps
  have hmul_le : ∀ i, i < jsCeilDiv S (getPieceSize S) → i * getPieceSize S ≤ S := by
    intro i hi
    match i with
    | 0 => omega
    | k + 1 => exact Nat.le_of_lt (jsCeilDiv_mul_lt S (getPieceSize S) k hps hi)
  refine ⟨mkPieces_length _ _ _ _, mkPieces_sum _ _ _ _ hcover, ?_, ?_, ?_, ?_⟩
  · intro i hi
    rw [mkPieces_getD _ _ _ _ _ hi]
    refine ⟨rfl, rfl, ?_⟩
    exact mkPieces_take_sum "f" S (getPieceSize S) _ i (Nat.le_of_lt hi) (hmul_le i hi)
  · intro i hi
    rw [mkPieces_getD _ _ _ _ _ (by omega)]
    have h := jsCeilDiv_mul_lt S (getPieceSize S) i hps hi
    have h2 : i * getPieceSize S + getPieceSize S ≤ S := by
      have : (i + 1) * getPieceSize S = i * getPieceSize S + getPieceSize S := by ring
      omega
    simp only []
    omega
  · decide
  · decide

/-! ### Claim C1 -/

/-- C1 counterexample: a chunk of 2 bytes submitted for planned piece 0 of
length 4 (with an agreeing claimed hash) is accepted: it is written to the
blob, the piece row is marked complete, and success plus completion are
announced — the handler never compares the byte length against
table[index].length, so the claim that such a submission is rejected is
false. -/
theorem C1_length_check_counterexample :
    ((handleUploadChunk constHash exState1 0
        ⟨some "f", some 0, some [1, 2], some "h"⟩).1.pieces
      = [⟨"f", 0, "h", 4, 0, true⟩])
    ∧ ((handleUploadChunk constHash exState1 0
        ⟨some "f", some 0, some [1, 2], some "h"⟩).1.blobs = [("p", [1, 2])])
    ∧ ((handleUploadChunk constHash exState1 0
        ⟨some "f", some 0, some [1, 2], some "h"⟩).2
      = [(0, WsMsg.uploadChunkSuccess "f" 0 1 1), (0, WsMsg.uploadComplete "f")])
    ∧ exState1.pieces = [⟨"f", 0, "", 4, 0, false⟩]
    ∧ ([1, 2] : List Nat).length ≠ 4 := by
  decide

/-- C1 amended: handleUploadChunk computes the actual hash of the submitted
bytes and, when a truthy (non-empty) claimed hash disagrees with it, rejects
with HASH_MISMATCH leaving the entire state untouched (no blob write, no
metadata change, the piece stays incomplete); when the claimed hash is
falsy or agrees, the submission is accepted — written and marked complete
with the computed hash — for bytes of any length: no check against
table[index].length is performed. -/
theorem C1_hash_check_no_length_check (hashFn : List Nat → String)
    (st : ServerState) (ws : Nat) (fid : String) (idx : Nat) (bytes : List Nat)
    (h : Option String) (u : UploadSession)
    (hfid : fid ≠ "") (hbytes : bytes ≠ [])
    (hlk : alistLookup st.activeUploads fid = some u) :
    (strTruthy h = true → hashFn bytes ≠ h.getD "" →
      handleUploadChunk hashFn st ws ⟨some fid, some idx, some bytes, h⟩ =
        (st, [(ws, WsMsg.errorMsg "HASH_MISMATCH" "Chunk hash mismatch")]))
    ∧ (strTruthy h = false ∨ hashFn bytes = h.getD "" →
      (∀ p ∈ (handleUploadChunk hashFn st ws
          ⟨some fid, some idx, some bytes, h⟩).1.pieces,
        p.fileId = fid → p.pieceIndex = idx →
          p.isComplete = true ∧ p.hash = hashFn bytes)
      ∧ (ws, WsMsg.uploadChunkSuccess fid idx (setAdd u.uploadedChunks idx).length
            u.totalPieces)
          ∈ (handleUploadChunk hashFn st ws ⟨some fid, some idx, some bytes, h⟩).2) := by
  constructor
  · intro hh hne
    exact handleUploadChunk_mismatch hashFn st ws fid idx bytes h u hfid hbytes hlk hh hne
  · intro hhash
    rw [handleUploadChunk_eq_accept hashFn st ws fid idx bytes h u hfid hbytes hlk hhash]
    constructor
    · intro p hp hpf hpi
      rw [acceptChunk_pieces] at hp
      exact updated_row_complete st.pieces fid idx (hashFn bytes) p hp hpf hpi
    · exact acceptChunk_success_mem hashFn st ws fid idx bytes u

/-- Witness for C1 at a concrete accepted and rejected input. -/
theorem C1_hash_check_no_length_check_witness :
    (("f" : String) ≠ "" ∧ ([9] : List Nat) ≠ []
      ∧ alistLookup exState1.activeUploads "f" = some ⟨"p", [], 1, 4, 4, 0⟩)
    ∧ ((strTruthy (some "h") = true → constHash [9] ≠ (some "h").getD "" →
        handleUploadChunk constHash exState1 0 ⟨some "f", some 0, some [9], some "h"⟩ =
          (exState1, [(0, WsMsg.errorMsg "HASH_MISMATCH" "Chunk hash mismatch")]))
      ∧ (strTruthy (some "h") = false ∨ constHash [9] = (some "h").getD "" →
        (∀ p ∈ (handleUploadChunk constHash exState1 0
            ⟨some "f", some 0, some [9], some "h"⟩).1.pieces,
          p.fileId = "f" → p.pieceIndex = 0 →
            p.isComplete = true ∧ p.hash = constHash [9])
        ∧ (0, WsMsg.uploadChunkSuccess "f" 0
              (setAdd (⟨"p", [], 1, 4, 4, 0⟩ : UploadSession).uploadedChunks 0).length
              (⟨"p", [], 1, 4, 4, 0⟩ : UploadSession).totalPieces)
            ∈ (handleUploadChunk constHash exState1 0
                ⟨some "f", some 0, some [9], some "h"⟩).2)) :=
  ⟨⟨by decide, by decide, by decide⟩,
    C1_hash_check_no_length_check constHash exState1 0 "f" 0 [9] (some "h")
      ⟨"p", [], 1, 4, 4, 0⟩ (by decide) (by decide) (by decide)⟩

/-! ### Claim C6 -/

/-- C6: chunks are accepted in any order (no hypothesis below constrains which
other indices are present), and a duplicate submission of an already-complete
index with the same bytes and hash is an idempotent no-op: the resulting state
is equal to the previous one — the blob bytes at the piece's range, the stored
hash and complete flag, and the uploaded-chunk count are all unchanged — and
the producer simply gets another success acknowledgement. -/
theorem C6_duplicate_idempotent (hashFn : List Nat → String) (st : ServerState)
    (ws : Nat) (fid : String) (idx : Nat) (bytes : List Nat) (u : UploadSession)
    (content : List Nat)
    (hfid : fid ≠ "") (hbytes : bytes ≠ [])
    (hlk : alistLookup st.activeUploads fid = some u)
    (hdup : idx ∈ u.uploadedChunks)
    (hnotdone : u.uploadedChunks.length ≠ u.totalPieces)
    (hblob : alistLookup st.blobs u.filePath = some content)
    (hlen : idx * u.pieceSize + bytes.length ≤ content.length)
    (hsame : ∀ j, j < bytes.length →
      content.getD (idx * u.pieceSize + j) 0 = bytes.getD j 0)
    (hrows : ∀ p ∈ st.pieces, p.fileId = fid → p.pieceIndex = idx →
      p.hash = hashFn bytes ∧ p.isComplete = true) :
    handleUploadChunk hashFn st ws ⟨some fid, some idx, some bytes, some (hashFn bytes)⟩ =
      (st, [(ws, WsMsg.uploadChunkSuccess fid idx u.uploadedChunks.length
          u.totalPieces)]
        ++ notifyDownloaders st fid idx) := by
  rw [handleUploadChunk_eq_accept hashFn st ws fid idx bytes (some (hashFn bytes)) u
    hfid hbytes hlk (Or.inr rfl)]
  have hset : setAdd u.uploadedChunks idx = u.uploadedChunks := by
    simp [setAdd, hdup]
  have hwrite : writeAt content (idx * u.pieceSize) bytes = content :=
    writeAt_eq_self content (idx * u.pieceSize) bytes hlen hsame
  have hpieces : updatePieceComplete (updatePieceHash st.pieces fid idx (hashFn bytes))
      fid idx true = st.pieces := by
    rw [updatePieceHash_eq_self st.pieces fid idx (hashFn bytes)
      (fun p hp h1 h2 => (hrows p hp h1 h2).1)]
    exact updatePieceComplete_eq_self st.pieces fid idx true
      (fun p hp h1 h2 => (hrows p hp h1 h2).2)
  have hupl : alistSet st.activeUploads fid { u with uploadedChunks := u.uploadedChunks }
      = st.activeUploads := alistSet_lookup_self st.activeUploads fid u hlk
  have hblobs : alistSet st.blobs u.filePath
      (writeAt ((alistLookup st.blobs u.filePath).getD []) (idx * u.pieceSize) bytes)
      = st.blobs := by
    rw [hblob]
    simp only [Option.getD_some]
    rw [hwrite]
    exact alistSet_lookup_self st.blobs u.filePath content hblob
  unfold acceptChunk
  simp only [hblobs, hpieces, hset, hupl]
  rw [if_neg hnotdone]

/-- Witness for C6: resubmitting the already-complete piece 0 of exState2 with
its original bytes and hash. -/
theorem C6_duplicate_idempotent_witness :
    (("f" : String) ≠ "" ∧ ([5, 6] : List Nat) ≠ []
      ∧ alistLookup exState2.activeUploads "f" = some ⟨"p", [0], 2, 2, 4, 1⟩
      ∧ 0 ∈ (⟨"p", [0], 2, 2, 4, 1⟩ : UploadSession).uploadedChunks
      ∧ (⟨"p", [0], 2, 2, 4, 1⟩ : UploadSession).uploadedChunks.length ≠ 2
      ∧ alistLookup exState2.blobs "p" = some [5, 6]
      ∧ 0 * 2 + ([5, 6] : List Nat).length ≤ ([5, 6] : List Nat).length
      ∧ (∀ j, j < ([5, 6] : List Nat).length →
          ([5, 6] : List Nat).getD (0 * 2 + j) 0 = ([5, 6] : List Nat).getD j 0)
      ∧ (∀ p ∈ exState2.pieces, p.fileId = "f" → p.pieceIndex = 0 →
          p.hash = constHash [5, 6] ∧ p.isComplete = true))
    ∧ handleUploadChunk constHash exState2 1
        ⟨some "f", some 0, some [5, 6], some (constHash [5, 6])⟩ =
      (exState2, [(1, WsMsg.uploadChunkSuccess "f" 0
          (⟨"p", [0], 2, 2, 4, 1⟩ : UploadSession).uploadedChunks.length 2)]
        ++ notifyDownloaders exState2 "f" 0) :=
  ⟨⟨by decide, by decide, by decide, by decide, by decide, by decide, by decide,
      by decide, by decide⟩,
    C6_duplicate_idempotent constHash exState2 1 "f" 0 [5, 6]
      ⟨"p", [0], 2, 2, 4, 1⟩ [5, 6] (by decide) (by decide) (by decide) (by decide)
      (by decide) (by decide) (by decide) (by decide) (by decide)⟩

/-- Witness for C2 at the concrete size S = 5. -/
theorem C2_piece_plan_witness :
    1 ≤ 5
    ∧ ((mkPieces "f" 5 (getPieceSize 5) (jsCeilDiv 5 (getPieceSize 5))).length
        = jsCeilDiv 5 (getPieceSize 5)
    ∧ ((mkPieces "f" 5 (getPieceSize 5) (jsCeilDiv 5 (getPieceSize 5))).map
        PieceRow.size).sum = 5
    ∧ (∀ i, i < jsCeilDiv 5 (getPieceSize 5) →
        ((mkPieces "f" 5 (getPieceSize 5) (jsCeilDiv 5 (getPieceSize 5))).getD i
            default).offset = i * getPieceSize 5
        ∧ ((mkPieces "f" 5 (getPieceSize 5) (jsCeilDiv 5 (getPieceSize 5))).getD i
            default).size = min (getPieceSize 5) (5 - i * getPieceSize 5)
        ∧ (((mkPieces "f" 5 (getPieceSize 5) (jsCeilDiv 5 (getPieceSize 5))).take i).map
            PieceRow.size).sum
            = ((mkPieces "f" 5 (getPieceSize 5) (jsCeilDiv 5 (getPieceSize 5))).getD i
                default).offset)
    ∧ (∀ i, i + 1 < jsCeilDiv 5 (getPieceSize 5) →
        ((mkPieces "f" 5 (getPieceSize 5) (jsCeilDiv 5 (getPieceSize 5))).getD i
            default).size = getPieceSize 5)
    ∧ getPieceSize (200 * 1024 * 1024) = 256 * 1024
    ∧ jsCeilDiv (200 * 1024 * 1024) (256 * 1024) = 800) :=
  ⟨by decide, C2_piece_plan 5 (by decide)⟩

/-- Setting a key that is absent appends it, leaving every other entry as is. -/
theorem alistSet_eq_append {α : Type} (m : List (String × α)) (k : String) (v : α)
    (h : alistLookup m k = none) : alistSet m k v = m ++ [(k, v)] := by
  induction m with
  | nil => rfl
  | cons e rest ih =>
    obtain ⟨k0, v0⟩ := e
    by_cases h0 : k0 = k
    · simp [alistLookup, h0] at h
    · simp only [alistLookup, if_neg h0] at h
      simp [alistSet, h0, ih h]

/-- A DOWNLOAD_REQUEST for a known file whose matching rows are all incomplete
is answered with the CHUNK_NOT_AVAILABLE rejection. -/
theorem handleDownloadRequest_not_available (st : ServerState) (w : Nat)
    (fid : String) (idx : Nat) (hfid : fid ≠ "")
    (file : FileRow) (hfile : getFileById st.files fid = some file)
    (hinc : ∀ p ∈ st.pieces, p.fileId = fid → p.pieceIndex = idx →
      p.isComplete = false) :
    handleDownloadRequest st w (some fid) (some idx)
      = [(w, WsMsg.errorMsg "CHUNK_NOT_AVAILABLE" "Chunk not available")] := by
  have hguard : ¬ (strTruthy (some fid) = false ∨ (some idx : Option Nat) = none) := by
    simp [strTruthy, hfid]
  have hfind : (getPiecesByFileId st.pieces fid).find?
      (fun p => p.pieceIndex == idx && p.isComplete) = none := by
    rw [List.find?_eq_none]
    intro p hp
    unfold getPiecesByFileId at hp
    have hp2 := List.mem_filter.mp hp
    have hpf : p.fileId = fid := by simpa using hp2.2
    by_cases hpi : p.pieceIndex = idx
    · have hc := hinc p hp2.1 hpf hpi
      simp [hc]
    · simp [hpi]
  unfold handleDownloadRequest
  rw [if_neg hguard]
  simp only [Option.getD_some, hfile, hfind]

/-- Every DOWNLOAD_CHUNK reply of handleDownloadRequest carries exactly the
recorded number of bytes (a short read is turned into READ_ERROR instead). -/
theorem handleDownloadRequest_chunk_length (st : ServerState) (w : Nat)
    (fid : Option String) (idx : Option Nat) (m : Nat × WsMsg)
    (hm : m ∈ handleDownloadRequest st w fid idx)
    (f2 : String) (i2 : Nat) (d : List Nat) (h2 : String) (sz off : Nat)
    (heq : m.2 = WsMsg.downloadChunk f2 i2 d h2 sz off) : d.length = sz := by
  unfold handleDownloadRequest at hm
  by_cases hg : (strTruthy fid = false ∨ idx = none)
  · rw [if_pos hg] at hm
    simp only [List.mem_singleton] at hm
    subst hm
    simp at heq
  · rw [if_neg hg] at hm
    cases hf : getFileById st.files (fid.getD "") with
    | none =>
      simp only [hf, List.mem_singleton] at hm
      subst hm
      simp at heq
    | some file =>
      simp only [hf] at hm
      cases hfind : (getPiecesByFileId st.pieces (fid.getD "")).find?
          (fun p => p.pieceIndex == idx.getD 0 && p.isComplete) with
      | none =>
        simp only [hfind, List.mem_singleton] at hm
        subst hm
        simp at heq
      | some piece =>
        simp only [hfind] at hm
        by_cases hr : (readAt ((alistLookup st.blobs file.filePath).getD [])
            piece.size piece.offset).length ≠ piece.size
        · rw [if_pos hr] at hm
          simp only [List.mem_singleton] at hm
          subst hm
          simp at heq
        · rw [if_neg hr] at hm
          simp only [List.mem_singleton] at hm
          subst hm
          simp only [WsMsg.downloadChunk.injEq] at heq
          obtain ⟨h1, h2b, h3, h4, h5, h6⟩ := heq
          subst h3
          subst h5
          omega

/-- A 200-style HTTP piece response carries exactly the recorded length of a
complete row for that index. -/
theorem httpGetPiece_ok_exact (st : ServerState) (fid : String) (i : Nat)
    (d : List Nat) (hok : httpGetPiece st fid i = HttpResp.ok d) :
    ∃ r ∈ st.pieces, r.fileId = fid ∧ r.pieceIndex = i ∧ r.isComplete = true
      ∧ d.length = r.size := by
  unfold httpGetPiece at hok
  cases hfile : getFileById st.files fid with
  | none => simp [hfile] at hok
  | some file =>
    simp only [hfile] at hok
    cases hfind : (getPiecesByFileId st.pieces fid).find?
        (fun p => p.pieceIndex == i) with
    | none => simp [hfind] at hok
    | some r =>
      simp only [hfind] at hok
      by_cases hcomp : r.isComplete = false
      · rw [if_pos hcomp] at hok
        simp at hok
      · rw [if_neg hcomp] at hok
        cases hblob : alistLookup st.blobs file.filePath with
        | none => simp [hblob] at hok
        | some content =>
          simp only [hblob] at hok
          by_cases hlt : (readAt content r.size r.offset).length < r.size
          · rw [if_pos hlt] at hok
            simp at hok
          · rw [if_neg hlt] at hok
            have hd : readAt content r.size r.offset = d := by simpa using hok
            subst hd
            have hmem := List.mem_of_find?_eq_some hfind
            unfold getPiecesByFileId at hmem
            refine ⟨r, (List.mem_filter.mp hmem).1, ?_, ?_, ?_, ?_⟩
            · simpa using (List.mem_filter.mp hmem).2
            · simpa using List.find?_some hfind
            · simpa using hcomp
            · have hx : (readAt content r.size r.offset).length
                  = min r.size (content.length - r.offset) := by
                simp [readAt]
              omega

/-- A truncated HTTP piece response occurs only for a complete row and carries
strictly fewer bytes than that row's recorded length. -/
theorem httpGetPiece_truncated_short (st : ServerState) (fid : String) (i : Nat)
    (d : List Nat) (htr : httpGetPiece st fid i = HttpResp.truncated d) :
    ∃ r ∈ st.pieces, r.fileId = fid ∧ r.pieceIndex = i ∧ r.isComplete = true
      ∧ d.length < r.size := by
  unfold httpGetPiece at htr
  cases hfile : getFileById st.files fid with
  | none => simp [hfile] at htr
  | some file =>
    simp only [hfile] at htr
    cases hfind : (getPiecesByFileId st.pieces fid).find?
        (fun p => p.pieceIndex == i) with
    | none => simp [hfind] at htr
    | some r =>
      simp only [hfind] at htr
      by_cases hcomp : r.isComplete = false
      · rw [if_pos hcomp] at htr
        simp at htr
      · rw [if_neg hcomp] at htr
        cases hblob : alistLookup st.blobs file.filePath with
        | none => simp [hblob] at htr
        | some content =>
          simp only [hblob] at htr
          by_cases hlt : (readAt content r.size r.offset).length < r.size
          · rw [if_pos hlt] at htr
            have hd : readAt content r.size r.offset = d := by simpa using htr
            subst hd
            have hmem := List.mem_of_find?_eq_some hfind
            unfold getPiecesByFileId at hmem
            refine ⟨r, (List.mem_filter.mp hmem).1, ?_, ?_, ?_, hlt⟩
            · simpa using (List.mem_filter.mp hmem).2
            · simpa using List.find?_some hfind
            · simpa using hcomp
          · rw [if_neg hlt] at htr
            simp at htr

/-! ### Claim C3 -/

/-- C3 counterexample: in the mid-transfer state exState2 the producer (ws 1)
disconnects. cleanupConnection removes the session but sends no message to
the subscriber (ws 2), deletes neither the Piece rows nor the blob bytes, and
the subscriber's next request for the pending piece 1 receives the ordinary
CHUNK_NOT_AVAILABLE rejection — the "wait or retry" kind — not a failure
signal. -/
theorem C3_abort_no_cleanup_counterexample :
    ((cleanupConnection exState2 1).2 = [])
    ∧ (alistLookup (cleanupConnection exState2 1).1.activeUploads "f" = none)
    ∧ ((cleanupConnection exState2 1).1.pieces = exState2.pieces)
    ∧ ((cleanupConnection exState2 1).1.blobs = exState2.blobs)
    ∧ exState2.pieces ≠ []
    ∧ (alistLookup (cleanupConnection exState2 1).1.activeDownloads "f" = some [2])
    ∧ (handleDownloadRequest (cleanupConnection exState2 1).1 2 (some "f") (some 1)
        = [(2, WsMsg.errorMsg "CHUNK_NOT_AVAILABLE" "Chunk not available")]) := by
  decide

/-- C3 amended: producer disconnect only removes the in-memory registry
entries: cleanupConnection emits no message, retains every Piece row, blob
byte and file row, and a subscriber's next piece request for a still
incomplete piece is answered with the ordinary CHUNK_NOT_AVAILABLE rejection
rather than any failure signal. -/
theorem C3_abort_retains_state (st : ServerState) (ws w : Nat) (fid : String)
    (idx : Nat) (hfid : fid ≠ "")
    (file : FileRow) (hfile : getFileById st.files fid = some file)
    (hinc : ∀ p ∈ st.pieces, p.fileId = fid → p.pieceIndex = idx →
      p.isComplete = false) :
    (cleanupConnection st ws).2 = []
    ∧ (cleanupConnection st ws).1.pieces = st.pieces
    ∧ (cleanupConnection st ws).1.blobs = st.blobs
    ∧ (cleanupConnection st ws).1.files = st.files
    ∧ handleDownloadRequest (cleanupConnection st ws).1 w (some fid) (some idx)
        = [(w, WsMsg.errorMsg "CHUNK_NOT_AVAILABLE" "Chunk not available")] := by
  exact ⟨rfl, rfl, rfl, rfl,
    handleDownloadRequest_not_available (cleanupConnection st ws).1 w fid idx hfid
      file hfile hinc⟩

/-- Witness for C3 amended on exState2 with the producer disconnecting. -/
theorem C3_abort_retains_state_witness :
    (("f" : String) ≠ ""
      ∧ getFileById exState2.files "f"
          = some ⟨"f", "f", "a.bin", 4, 2, 2, "application/octet-stream", "p"⟩
      ∧ (∀ p ∈ exState2.pieces, p.fileId = "f" → p.pieceIndex = 1 →
          p.isComplete = false))
    ∧ ((cleanupConnection exState2 1).2 = []
      ∧ (cleanupConnection exState2 1).1.pieces = exState2.pieces
      ∧ (cleanupConnection exState2 1).1.blobs = exState2.blobs
      ∧ (cleanupConnection exState2 1).1.files = exState2.files
      ∧ handleDownloadRequest (cleanupConnection exState2 1).1 2 (some "f") (some 1)
          = [(2, WsMsg.errorMsg "CHUNK_NOT_AVAILABLE" "Chunk not available")]) :=
  ⟨⟨by decide, by decide, by decide⟩,
    C3_abort_retains_state exState2 1 2 "f" 1 (by decide)
      ⟨"f", "f", "a.bin", 4, 2, 2, "application/octet-stream", "p"⟩ (by decide)
      (by decide)⟩

/-! ### Claim C4 -/

/-- C4 counterexample: with the session for "f" active in exState2, a further
UPLOAD_INIT is not rejected with any conflict error: it succeeds outright,
creating a second independent session under the freshly drawn id "f2" while
the original session remains registered — no conflict check exists in
handleUploadInit (the payload does not even carry a fileId). -/
theorem C4_no_conflict_check_counterexample :
    ((handleUploadInit exState2 3 ⟨some "g.txt", some 4, none⟩ "f2" 1000000000).2
      = [(3, WsMsg.uploadInitSuccess "f2" 65536 1)])
    ∧ (alistLookup (handleUploadInit exState2 3 ⟨some "g.txt", some 4, none⟩ "f2"
        1000000000).1.activeUploads "f" = some ⟨"p", [0], 2, 2, 4, 1⟩)
    ∧ ((alistLookup (handleUploadInit exState2 3 ⟨some "g.txt", some 4, none⟩ "f2"
        1000000000).1.activeUploads "f2").isSome = true) := by
  decide

/-- C4 amended: at most one session per fileId holds only because every
UPLOAD_INIT is keyed by a freshly drawn uuid: a valid init under quota never
produces a conflict error — it appends a new session under the fresh id,
every previously active session (any other fileId) is preserved unchanged,
and the registry is extended by exactly the one new entry. -/
theorem C4_fresh_id_no_conflict (st : ServerState) (ws : Nat) (p : InitPayload)
    (g : String) (limit : Nat)
    (hname : strTruthy p.filename = true) (hsize : natTruthy p.size = true)
    (hquota : (st.files.map FileRow.size).sum + p.size.getD 0 ≤ limit)
    (hfresh : alistLookup st.activeUploads g = none) :
    (handleUploadInit st ws p g limit).2
        = [(ws, WsMsg.uploadInitSuccess g (getPieceSize (p.size.getD 0))
            (jsCeilDiv (p.size.getD 0) (getPieceSize (p.size.getD 0))))]
    ∧ (handleUploadInit st ws p g limit).1.activeUploads
        = st.activeUploads ++ [(g,
            ⟨String.append "uploads/" g, [],
              jsCeilDiv (p.size.getD 0) (getPieceSize (p.size.getD 0)),
              getPieceSize (p.size.getD 0), p.size.getD 0, ws⟩)]
    ∧ (∀ f, f ≠ g → alistLookup (handleUploadInit st ws p g limit).1.activeUploads f
        = alistLookup st.activeUploads f) := by
  have hguard : ¬ (strTruthy p.filename = false ∨ natTruthy p.size = false) := by
    simp [hname, hsize]
  have hq : ¬ ((st.files.map FileRow.size).sum + p.size.getD 0 > limit) := by omega
  unfold handleUploadInit
  rw [if_neg hguard, if_neg hq]
  refine ⟨rfl, ?_, ?_⟩
  · exact alistSet_eq_append st.activeUploads g _ hfresh
  · intro f hf
    exact alistLookup_set_ne st.activeUploads g f _ (fun hgf => hf hgf.symm)

/-- Witness for C4 amended: a second init while exState2's session is live. -/
theorem C4_fresh_id_no_conflict_witness :
    (strTruthy (some "g.txt") = true ∧ natTruthy (some 4) = true
      ∧ (exState2.files.map FileRow.size).sum + (some 4 : Option Nat).getD 0
          ≤ 1000000000
      ∧ alistLookup exState2.activeUploads "f2" = none)
    ∧ ((handleUploadInit exState2 3 ⟨some "g.txt", some 4, none⟩ "f2" 1000000000).2
        = [(3, WsMsg.uploadInitSuccess "f2"
            (getPieceSize ((some 4 : Option Nat).getD 0))
            (jsCeilDiv ((some 4 : Option Nat).getD 0)
              (getPieceSize ((some 4 : Option Nat).getD 0))))]
      ∧ (handleUploadInit exState2 3 ⟨some "g.txt", some 4, none⟩ "f2"
          1000000000).1.activeUploads
          = exState2.activeUploads ++ [("f2",
              ⟨String.append "uploads/" "f2", [],
                jsCeilDiv ((some 4 : Option Nat).getD 0)
                  (getPieceSize ((some 4 : Option Nat).getD 0)),
                getPieceSize ((some 4 : Option Nat).getD 0),
                (some 4 : Option Nat).getD 0, 3⟩)]
      ∧ (∀ f, f ≠ "f2" →
          alistLookup (handleUploadInit exState2 3 ⟨some "g.txt", some 4, none⟩ "f2"
            1000000000).1.activeUploads f
          = alistLookup exState2.activeUploads f)) :=
  ⟨⟨by decide, by decide, by decide, by decide⟩,
    C4_fresh_id_no_conflict exState2 3 ⟨some "g.txt", some 4, none⟩ "f2" 1000000000
      (by decide) (by decide) (by decide) (by decide)⟩

/-! ### Claim C10 -/

/-- C10: when the claimed hash field is falsy (missing or empty), the chunk is
never rejected for integrity — no error message of any kind is sent — and the
piece is written to the blob store and marked complete with the
server-computed hash. -/
theorem C10_falsy_hash_skips_check (hashFn : List Nat → String) (st : ServerState)
    (ws : Nat) (fid : String) (idx : Nat) (bytes : List Nat) (h : Option String)
    (u : UploadSession)
    (hfid : fid ≠ "") (hbytes : bytes ≠ [])
    (hlk : alistLookup st.activeUploads fid = some u)
    (hfalsy : strTruthy h = false) :
    (∀ m ∈ (handleUploadChunk hashFn st ws ⟨some fid, some idx, some bytes, h⟩).2,
      ∀ et s, m.2 ≠ WsMsg.errorMsg et s)
    ∧ (∀ p ∈ (handleUploadChunk hashFn st ws
        ⟨some fid, some idx, some bytes, h⟩).1.pieces,
      p.fileId = fid → p.pieceIndex = idx →
        p.isComplete = true ∧ p.hash = hashFn bytes)
    ∧ (handleUploadChunk hashFn st ws ⟨some fid, some idx, some bytes, h⟩).1.blobs =
        alistSet st.blobs u.filePath
          (writeAt ((alistLookup st.blobs u.filePath).getD []) (idx * u.pieceSize)
            bytes)
    ∧ (ws, WsMsg.uploadChunkSuccess fid idx (setAdd u.uploadedChunks idx).length
          u.totalPieces)
        ∈ (handleUploadChunk hashFn st ws ⟨some fid, some idx, some bytes, h⟩).2 := by
  rw [handleUploadChunk_eq_accept hashFn st ws fid idx bytes h u hfid hbytes hlk
    (Or.inl hfalsy)]
  refine ⟨?_, ?_, acceptChunk_blobs hashFn st ws fid idx bytes u,
    acceptChunk_success_mem hashFn st ws fid idx bytes u⟩
  · intro m hm et s
    exact acceptChunk_no_errorMsg hashFn st ws fid idx bytes u m hm et s
  · intro p hp hpf hpi
    rw [acceptChunk_pieces] at hp
    exact updated_row_complete st.pieces fid idx (hashFn bytes) p hp hpf hpi

/-- Witness for C10: a chunk with no hash field at all is accepted and marked
complete. -/
theorem C10_falsy_hash_skips_check_witness :
    (("f" : String) ≠ "" ∧ ([7, 8] : List Nat) ≠ []
      ∧ alistLookup exState1.activeUploads "f" = some ⟨"p", [], 1, 4, 4, 0⟩
      ∧ strTruthy none = false)
    ∧ ((∀ m ∈ (handleUploadChunk constHash exState1 0
          ⟨some "f", some 0, some [7, 8], none⟩).2,
        ∀ et s, m.2 ≠ WsMsg.errorMsg et s)
      ∧ (∀ p ∈ (handleUploadChunk constHash exState1 0
          ⟨some "f", some 0, some [7, 8], none⟩).1.pieces,
        p.fileId = "f" → p.pieceIndex = 0 →
          p.isComplete = true ∧ p.hash = constHash [7, 8])
      ∧ (handleUploadChunk constHash exState1 0
          ⟨some "f", some 0, some [7, 8], none⟩).1.blobs =
          alistSet exState1.blobs
            (⟨"p", [], 1, 4, 4, 0⟩ : UploadSession).filePath
            (writeAt ((alistLookup exState1.blobs
                (⟨"p", [], 1, 4, 4, 0⟩ : UploadSession).filePath).getD [])
              (0 * (⟨"p", [], 1, 4, 4, 0⟩ : UploadSession).pieceSize) [7, 8])
      ∧ (0, WsMsg.uploadChunkSuccess "f" 0
            (setAdd (⟨"p", [], 1, 4, 4, 0⟩ : UploadSession).uploadedChunks 0).length
            (⟨"p", [], 1, 4, 4, 0⟩ : UploadSession).totalPieces)
          ∈ (handleUploadChunk constHash exState1 0
              ⟨some "f", some 0, some [7, 8], none⟩).2) :=
  ⟨⟨by decide, by decide, by decide, by decide⟩,
    C10_falsy_hash_skips_check constHash exState1 0 "f" 0 [7, 8] none
      ⟨"p", [], 1, 4, 4, 0⟩ (by decide) (by decide) (by decide) (by decide)⟩

/-! ### Claim C9 -/

/-- C9: handleUploadChunk performs no bounds check of chunkIndex against
totalPieces: an out-of-range index (totalPieces <= idx) is accepted, its bytes
are written at file offset idx * pieceSize, the index joins the uploaded set
and counts toward the completion test, while the database UPDATEs match no
row and leave every planned piece untouched — so when it is the
totalPieces-th distinct index, UPLOAD_COMPLETE fires and the session is
dropped even though planned pieces remain incomplete. -/
theorem C9_no_bounds_check (hashFn : List Nat → String) (st : ServerState)
    (ws : Nat) (fid : String) (idx : Nat) (bytes : List Nat) (u : UploadSession)
    (hfid : fid ≠ "") (hbytes : bytes ≠ [])
    (hlk : alistLookup st.activeUploads fid = some u)
    (hoob : u.totalPieces ≤ idx)
    (hnorow : ∀ p ∈ st.pieces, ¬ (p.fileId = fid ∧ p.pieceIndex = idx))
    (hnew : idx ∉ u.uploadedChunks)
    (hfull : u.uploadedChunks.length + 1 = u.totalPieces) :
    (handleUploadChunk hashFn st ws ⟨some fid, some idx, some bytes, none⟩).1.blobs =
      alistSet st.blobs u.filePath
        (writeAt ((alistLookup st.blobs u.filePath).getD []) (idx * u.pieceSize)
          bytes)
    ∧ (ws, WsMsg.uploadChunkSuccess fid idx (setAdd u.uploadedChunks idx).length
          u.totalPieces)
        ∈ (handleUploadChunk hashFn st ws ⟨some fid, some idx, some bytes, none⟩).2
    ∧ (handleUploadChunk hashFn st ws
        ⟨some fid, some idx, some bytes, none⟩).1.pieces = st.pieces
    ∧ (ws, WsMsg.uploadComplete fid)
        ∈ (handleUploadChunk hashFn st ws ⟨some fid, some idx, some bytes, none⟩).2
    ∧ alistLookup (handleUploadChunk hashFn st ws
        ⟨some fid, some idx, some bytes, none⟩).1.activeUploads fid = none := by
  rw [handleUploadChunk_eq_accept hashFn st ws fid idx bytes none u hfid hbytes hlk
    (Or.inl rfl)]
  have hsetlen : (setAdd u.uploadedChunks idx).length = u.totalPieces := by
    simp only [setAdd, if_neg hnew, List.length_append, List.length_singleton]
    omega
  refine ⟨acceptChunk_blobs hashFn st ws fid idx bytes u,
    acceptChunk_success_mem hashFn st ws fid idx bytes u, ?_,
    acceptChunk_complete_mem hashFn st ws fid idx bytes u hsetlen,
    acceptChunk_session_removed hashFn st ws fid idx bytes u hsetlen⟩
  rw [acceptChunk_pieces]
  rw [updatePieceHash_no_match st.pieces fid idx (hashFn bytes) hnorow]
  exact updatePieceComplete_no_match st.pieces fid idx true hnorow

/-- Witness for C9: index 5 submitted to the single-piece session of exState1
triggers completion while planned piece 0 stays incomplete. -/
theorem C9_no_bounds_check_witness :
    (("f" : String) ≠ "" ∧ ([9] : List Nat) ≠ []
      ∧ alistLookup exState1.activeUploads "f" = some ⟨"p", [], 1, 4, 4, 0⟩
      ∧ (⟨"p", [], 1, 4, 4, 0⟩ : UploadSession).totalPieces ≤ 5
      ∧ (∀ p ∈ exState1.pieces, ¬ (p.fileId = "f" ∧ p.pieceIndex = 5))
      ∧ 5 ∉ (⟨"p", [], 1, 4, 4, 0⟩ : UploadSession).uploadedChunks
      ∧ (⟨"p", [], 1, 4, 4, 0⟩ : UploadSession).uploadedChunks.length + 1
          = (⟨"p", [], 1, 4, 4, 0⟩ : UploadSession).totalPieces)
    ∧ ((handleUploadChunk constHash exState1 0
          ⟨some "f", some 5, some [9], none⟩).1.blobs =
        alistSet exState1.blobs (⟨"p", [], 1, 4, 4, 0⟩ : UploadSession).filePath
          (writeAt ((alistLookup exState1.blobs
              (⟨"p", [], 1, 4, 4, 0⟩ : UploadSession).filePath).getD [])
            (5 * (⟨"p", [], 1, 4, 4, 0⟩ : UploadSession).pieceSize) [9])
      ∧ (0, WsMsg.uploadChunkSuccess "f" 5
            (setAdd (⟨"p", [], 1, 4, 4, 0⟩ : UploadSession).uploadedChunks 5).length
            (⟨"p", [], 1, 4, 4, 0⟩ : UploadSession).totalPieces)
          ∈ (handleUploadChunk constHash exState1 0
              ⟨some "f", some 5, some [9], none⟩).2
      ∧ (handleUploadChunk constHash exState1 0
          ⟨some "f", some 5, some [9], none⟩).1.pieces = exState1.pieces
      ∧ (0, WsMsg.uploadComplete "f")
          ∈ (handleUploadChunk constHash exState1 0
              ⟨some "f", some 5, some [9], none⟩).2
      ∧ alistLookup (handleUploadChunk constHash exState1 0
          ⟨some "f", some 5, some [9], none⟩).1.activeUploads "f" = none) :=
  ⟨⟨by decide, by decide, by decide, by decide, by decide, by decide, by decide⟩,
    C9_no_bounds_check constHash exState1 0 "f" 5 [9] ⟨"p", [], 1, 4, 4, 0⟩
      (by decide) (by decide) (by decide) (by decide) (by decide) (by decide)
      (by decide)⟩

/-! ### Claim C7 -/

/-- C7 counterexample: accepting piece 0 of a three-piece upload — neither an
Nth-piece flush point of any batching scheme with N > 1, nor a time-window
expiry (the handler has no timer), nor the final piece — immediately records
the piece's hash and complete flag in the metadata store, refuting the claim
that between flushes an accepted piece's hash and complete flag are not
immediately written. -/
theorem C7_counterexample :
    ((handleUploadChunk constHash exState3 0
        ⟨some "f", some 0, some [1, 2], none⟩).1.pieces
      = [⟨"f", 0, "h", 2, 0, true⟩, ⟨"f", 1, "", 2, 2, false⟩,
         ⟨"f", 2, "", 2, 4, false⟩])
    ∧ ((handleUploadChunk constHash exState3 0
        ⟨some "f", some 0, some [1, 2], none⟩).2
      = [(0, WsMsg.uploadChunkSuccess "f" 0 1 3)])
    ∧ exState3.pieces.getD 0 default = ⟨"f", 0, "", 2, 0, false⟩ := by
  decide

/-- C7 amended: metadata-store writes are not batched: every accepted chunk
synchronously runs both UPDATE statements, so the post-state's pieces table
is exactly the previous table with the accepted piece's hash and complete
flag written — for every piece, not only every Nth or the final one. -/
theorem C7_immediate_metadata_write (hashFn : List Nat → String) (st : ServerState)
    (ws : Nat) (fid : String) (idx : Nat) (bytes : List Nat) (h : Option String)
    (u : UploadSession)
    (hfid : fid ≠ "") (hbytes : bytes ≠ [])
    (hlk : alistLookup st.activeUploads fid = some u)
    (hhash : strTruthy h = false ∨ hashFn bytes = h.getD "") :
    (handleUploadChunk hashFn st ws ⟨some fid, some idx, some bytes, h⟩).1.pieces =
      updatePieceComplete (updatePieceHash st.pieces fid idx (hashFn bytes))
        fid idx true := by
  rw [handleUploadChunk_eq_accept hashFn st ws fid idx bytes h u hfid hbytes hlk hhash]
  exact acceptChunk_pieces hashFn st ws fid idx bytes u

/-- Witness for C7 amended at a concrete accepted chunk. -/
theorem C7_immediate_metadata_write_witness :
    (("f" : String) ≠ "" ∧ ([1, 2] : List Nat) ≠ []
      ∧ alistLookup exState3.activeUploads "f" = some ⟨"p", [], 3, 2, 6, 0⟩
      ∧ (strTruthy none = false ∨ constHash [1, 2] = (none : Option String).getD ""))
    ∧ (handleUploadChunk constHash exState3 0
        ⟨some "f", some 0, some [1, 2], none⟩).1.pieces =
      updatePieceComplete (updatePieceHash exState3.pieces "f" 0 (constHash [1, 2]))
        "f" 0 true :=
  ⟨⟨by decide, by decide, by decide, Or.inl (by decide)⟩,
    C7_immediate_metadata_write constHash exState3 0 "f" 0 [1, 2] none
      ⟨"p", [], 3, 2, 6, 0⟩ (by decide) (by decide) (by decide)
      (Or.inl (by decide))⟩

/-! ### Claim C5 -/

/-- C5 counterexample: on the message protocol, an out-of-range index (5, with
only 2 planned pieces) gets the very same CHUNK_NOT_AVAILABLE rejection as a
valid-but-incomplete index (1), not the not-found kind — so "index out of
range yields not found" fails on the WS surface. -/
theorem C5_out_of_range_conflation_counterexample :
    (handleDownloadRequest exState2 2 (some "f") (some 5)
      = [(2, WsMsg.errorMsg "CHUNK_NOT_AVAILABLE" "Chunk not available")])
    ∧ (handleDownloadRequest exState2 2 (some "f") (some 1)
      = [(2, WsMsg.errorMsg "CHUNK_NOT_AVAILABLE" "Chunk not available")])
    ∧ (handleDownloadRequest exState2 2 (some "zzz") (some 0)
      = [(2, WsMsg.errorMsg "FILE_NOT_FOUND" "File not found")])
    ∧ (exState2.files.getD 0 default).totalPieces = 2 := by
  decide

/-- C5 amended: the HTTP piece endpoint distinguishes the three outcomes as
claimed — unknown fileId and out-of-range index yield the not-found kind,
a valid-but-incomplete index yields the distinct not-ready kind; on the
message protocol an unknown fileId yields FILE_NOT_FOUND while both an
out-of-range and a valid-but-incomplete index yield the same
CHUNK_NOT_AVAILABLE rejection, which is distinct from FILE_NOT_FOUND — so a
valid-but-incomplete index never receives the not-found kind on either
surface. -/
theorem C5_outcome_classification (st : ServerState) (w : Nat) (fid : String)
    (idx : Nat) (file : FileRow) (hfid : fid ≠ "") :
    (getFileById st.files fid = none →
      httpGetPiece st fid idx = HttpResp.notFoundFile
      ∧ handleDownloadRequest st w (some fid) (some idx)
          = [(w, WsMsg.errorMsg "FILE_NOT_FOUND" "File not found")])
    ∧ (getFileById st.files fid = some file →
      (∀ p ∈ st.pieces, p.fileId = fid → p.pieceIndex ≠ idx) →
      httpGetPiece st fid idx = HttpResp.notFoundPiece)
    ∧ (getFileById st.files fid = some file →
      (∀ p ∈ st.pieces, p.fileId = fid → p.pieceIndex = idx → p.isComplete = false) →
      (∃ p ∈ st.pieces, p.fileId = fid ∧ p.pieceIndex = idx) →
      httpGetPiece st fid idx = HttpResp.notReady idx)
    ∧ (getFileById st.files fid = some file →
      (∀ p ∈ st.pieces, p.fileId = fid → p.pieceIndex = idx → p.isComplete = false) →
      handleDownloadRequest st w (some fid) (some idx)
        = [(w, WsMsg.errorMsg "CHUNK_NOT_AVAILABLE" "Chunk not available")]) := by
  refine ⟨?_, ?_, ?_, ?_⟩
  · intro hnone
    constructor
    · unfold httpGetPiece
      simp [hnone]
    · have hguard : ¬ (strTruthy (some fid) = false
          ∨ (some idx : Option Nat) = none) := by
        simp [strTruthy, hfid]
      unfold handleDownloadRequest
      rw [if_neg hguard]
      simp [hnone]
  · intro hfile hno
    have hfind : (getPiecesByFileId st.pieces fid).find?
        (fun p => p.pieceIndex == idx) = none := by
      rw [List.find?_eq_none]
      intro p hp
      unfold getPiecesByFileId at hp
      have hp2 := List.mem_filter.mp hp
      have hpf : p.fileId = fid := by simpa using hp2.2
      simp [hno p hp2.1 hpf]
    unfold httpGetPiece
    simp [hfile, hfind]
  · intro hfile hallinc hex
    cases hfind : (getPiecesByFileId st.pieces fid).find?
        (fun p => p.pieceIndex == idx) with
    | none =>
      exfalso
      obtain ⟨p, hp, hpf, hpi⟩ := hex
      have hmem : p ∈ getPiecesByFileId st.pieces fid := by
        unfold getPiecesByFileId
        exact List.mem_filter.mpr ⟨hp, by simpa using hpf⟩
      have hc := List.find?_eq_none.mp hfind p hmem
      simp [hpi] at hc
    | some r =>
      have hmem := List.mem_of_find?_eq_some hfind
      unfold getPiecesByFileId at hmem
      have hr2 := List.mem_filter.mp hmem
      have hrf : r.fileId = fid := by simpa using hr2.2
      have hri : r.pieceIndex = idx := by simpa using List.find?_some hfind
      have hrc : r.isComplete = false := hallinc r hr2.1 hrf hri
      unfold httpGetPiece
      simp [hfile, hfind, hrc]
  · intro hfile hallinc
    exact handleDownloadRequest_not_available st w fid idx hfid file hfile hallinc

/-- Witness for C5 on exState2 at the valid-but-incomplete index 1. -/
theorem C5_outcome_classification_witness :
    ("f" : String) ≠ ""
    ∧ ((getFileById exState2.files "f" = none →
        httpGetPiece exState2 "f" 1 = HttpResp.notFoundFile
        ∧ handleDownloadRequest exState2 2 (some "f") (some 1)
            = [(2, WsMsg.errorMsg "FILE_NOT_FOUND" "File not found")])
      ∧ (getFileById exState2.files "f"
            = some ⟨"f", "f", "a.bin", 4, 2, 2, "application/octet-stream", "p"⟩ →
        (∀ p ∈ exState2.pieces, p.fileId = "f" → p.pieceIndex ≠ 1) →
        httpGetPiece exState2 "f" 1 = HttpResp.notFoundPiece)
      ∧ (getFileById exState2.files "f"
            = some ⟨"f", "f", "a.bin", 4, 2, 2, "application/octet-stream", "p"⟩ →
        (∀ p ∈ exState2.pieces, p.fileId = "f" → p.pieceIndex = 1 →
          p.isComplete = false) →
        (∃ p ∈ exState2.pieces, p.fileId = "f" ∧ p.pieceIndex = 1) →
        httpGetPiece exState2 "f" 1 = HttpResp.notReady 1)
      ∧ (getFileById exState2.files "f"
            = some ⟨"f", "f", "a.bin", 4, 2, 2, "application/octet-stream", "p"⟩ →
        (∀ p ∈ exState2.pieces, p.fileId = "f" → p.pieceIndex = 1 →
          p.isComplete = false) →
        handleDownloadRequest exState2 2 (some "f") (some 1)
          = [(2, WsMsg.errorMsg "CHUNK_NOT_AVAILABLE" "Chunk not available")])) :=
  ⟨by decide,
    C5_outcome_classification exState2 2 "f" 1
      ⟨"f", "f", "a.bin", 4, 2, 2, "application/octet-stream", "p"⟩ (by decide)⟩

/-! ### Claim C8 -/

/-- C8 counterexample: piece 0 of exState4 is recorded complete with length 4
but the blob holds only 2 bytes; the HTTP piece endpoint answers with the
truncated 2-byte body as the piece data (status 206 with partial content),
not with an explicit error or not-ready signal — the no-silent-truncation
claim fails on the HTTP surface. -/
theorem C8_http_truncation_counterexample :
    httpGetPiece exState4 "f" 0 = HttpResp.truncated [1, 2]
    ∧ (exState4.pieces.getD 0 default).isComplete = true
    ∧ (exState4.pieces.getD 0 default).size = 4
    ∧ ([1, 2] : List Nat).length < 4 := by
  decide

/-- C8 amended: on the message protocol no truncation is possible — every
DOWNLOAD_CHUNK reply and every fan-out push carries exactly the recorded
number of bytes, short reads becoming explicit errors — and an HTTP ok
response carries exactly the recorded length; but the HTTP piece endpoint can
answer a complete piece with a truncated body (strictly fewer bytes than the
recorded length) instead of an error. -/
theorem C8_exact_length_or_truncated_http (st : ServerState) (w : Nat)
    (fid : Option String) (idx : Option Nat) (f : String) (i : Nat) :
    (∀ m ∈ handleDownloadRequest st w fid idx, ∀ f2 i2 d h2 sz off,
      m.2 = WsMsg.downloadChunk f2 i2 d h2 sz off → d.length = sz)
    ∧ (∀ m ∈ notifyDownloaders st f i, ∀ f2 i2 d h2 sz off,
      m.2 = WsMsg.downloadChunk f2 i2 d h2 sz off → d.length = sz)
    ∧ (∀ d, httpGetPiece st f i = HttpResp.ok d →
      ∃ r ∈ st.pieces, r.fileId = f ∧ r.pieceIndex = i ∧ r.isComplete = true
        ∧ d.length = r.size)
    ∧ (∀ d, httpGetPiece st f i = HttpResp.truncated d →
      ∃ r ∈ st.pieces, r.fileId = f ∧ r.pieceIndex = i ∧ r.isComplete = true
        ∧ d.length < r.size) := by
  refine ⟨?_, ?_, ?_, ?_⟩
  · intro m hm f2 i2 d h2 sz off heq
    exact handleDownloadRequest_chunk_length st w fid idx m hm f2 i2 d h2 sz off heq
  · intro m hm f2 i2 d h2 sz off heq
    exact notifyDownloaders_chunk_length st f i m hm f2 i2 d h2 sz off heq
  · intro d hok
    exact httpGetPiece_ok_exact st f i d hok
  · intro d htr
    exact httpGetPiece_truncated_short st f i d htr

/-- Witness for C8: the WS reply for complete piece 0 of exState2 carries
exactly 2 bytes, and the truncated HTTP response of exState4 is strictly
shorter than the recorded piece length. -/
theorem C8_exact_length_or_truncated_http_witness :
    ((2, WsMsg.downloadChunk "f" 0 [5, 6] "h" 2 0)
        ∈ handleDownloadRequest exState2 2 (some "f") (some 0)
      ∧ ([5, 6] : List Nat).length = 2)
    ∧ (httpGetPiece exState4 "f" 0 = HttpResp.truncated [1, 2]
      ∧ ∃ r ∈ exState4.pieces, r.fileId = "f" ∧ r.pieceIndex = 0
          ∧ r.isComplete = true ∧ ([1, 2] : List Nat).length < r.size) :=
  ⟨⟨by decide,
      (C8_exact_length_or_truncated_http exState2 2 (some "f") (some 0) "f" 0).1
        (2, WsMsg.downloadChunk "f" 0 [5, 6] "h" 2 0) (by decide)
        "f" 0 [5, 6] "h" 2 0 rfl⟩,
    ⟨by decide,
      (C8_exact_length_or_truncated_http exState4 2 none none "f" 0).2.2.2
        [1, 2] (by decide)⟩⟩

end HastyFS
